import Mathlib

/-!
Verification of the moderation-gating and turn-orchestration logic of
`multimodal_moderation/types/gradio_app.py`, as a shallow embedding.

Modelling conventions:
* An HTTP response from a remote moderation endpoint is a record with an
  `ok` flag, a response `text`, and `body : Option ModerationResult`
  (`none` models a malformed JSON body: `response.json()` raising).
* A media file on disk is modelled by the observable values the code reads
  from it: the mime type `detect_file_type` computes for it, its size
  (`os.path.getsize`), and its bytes (`open(...).read()`).
  `detect_file_type` lives in `multimodal_moderation/utils.py`, which is
  not part of the two given source files; it is modelled as the
  `mime_type` field of `MediaFile` (the classifier's output for that file),
  independent of the inert `declared_media_type` field that records what
  the caller claimed the file was.
* Each moderation helper returns, next to its Python return value or raised
  exception, the number of HTTP POST requests it performed (0 or 1), so
  that the spec's remote-check counting properties can be stated.
* The environment `Env` supplies the remote collaborator's response for the
  n-th POST of a turn and the downstream agent collaborator.
-/

namespace MultimodalModeration

def MAX_FILE_SIZE_MB : Nat := 5

def MAX_FILE_SIZE_BYTES : Nat := MAX_FILE_SIZE_MB * 1024 * 1024

/-- A moderation result as returned by a remote check: boolean flags keyed by
name (the spec's interface invariant is that every flag named by the policy is
present, so the mapping is modelled as total), a rationale, and an optional
transcription (audio only). -/
structure ModerationResult where
  flags : String → Bool
  rationale : String
  transcription : Option String

/-- An HTTP response from a remote moderation endpoint. `body = none` models a
malformed response body (`response.json()` raising). -/
structure HttpResponse where
  ok : Bool
  text : String
  body : Option ModerationResult

/-- The observable values the code reads from a media file path:
`detect_file_type`'s classification (`mime_type`), `os.path.getsize`
(`size`), and the file's bytes. `declared_media_type` is whatever the caller
claimed the file to be; the code never reads it. -/
structure MediaFile where
  declared_media_type : String
  mime_type : String
  size : Nat
  bytes : List Nat
deriving DecidableEq

/-- The exceptions the moderation helpers can raise. -/
inductive ModError where
  | checkFailed (msg : String)
  | fileTooLarge
  | mustProvide
  | keyError (key : String)
deriving DecidableEq

/-- `mime_type.split("/")[0]`: the prefix of the mime type up to the first
slash (computed on the character list so that it evaluates by reduction). -/
def contentTypeOf (mime_type : String) : String :=
  String.mk (mime_type.toList.takeWhile (fun c => c ≠ '/'))

/-- `MODERATION_CONFIG[content_type]["unsafe_flags"]`; `none` models the
`KeyError` a content type outside the table would raise. The endpoint URL
field of the table plays no role in the gating logic and is omitted. -/
def MODERATION_CONFIG : String → Option (List String)
  | "text" => some ["is_unfriendly", "is_unprofessional", "contains_pii"]
  | "image" => some ["contains_pii", "is_disturbing", "is_low_quality"]
  | "video" => some ["contains_pii", "is_disturbing", "is_low_quality"]
  | "audio" => some ["is_unfriendly", "is_unprofessional", "contains_pii"]
  | _ => none

/-- `_call_text_moderation`: POST the text; on a non-ok response raise
`RuntimeError(response.text)`; a malformed body raises when parsed. The second
component counts HTTP POSTs performed (here always 1). -/
def callTextModeration (_text : String) (response : HttpResponse) :
    Except ModError (ModerationResult × String × String × String) × Nat :=
  if response.ok = false then
    (.error (.checkFailed response.text), 1)
  else
    match response.body with
    | none => (.error (.checkFailed "malformed response body"), 1)
    | some result => (.ok (result, result.rationale, "text", "text/plain"), 1)

/-- The feedback `_call_media_moderation` assembles from a result:
`feedback = result["rationale"]`, and
`if content_type == "audio" and "transcription" in result:` the
`Transcription: "<...>"` line plus a blank line is prefixed. -/
def mediaFeedback (content_type : String) (result : ModerationResult) : String :=
  if content_type = "audio" then
    match result.transcription with
    | some tr => "Transcription: \"" ++ tr ++ "\"\n\n" ++ result.rationale
    | none => result.rationale
  else result.rationale

/-- `_call_media_moderation`: classify, size-check (raising
`ValueError("File too large")` before any POST), POST the file, then build the
feedback, prefixing the transcription for audio. The second component counts
HTTP POSTs performed. -/
def callMediaModeration (media : MediaFile) (response : HttpResponse) :
    Except ModError (ModerationResult × String × String × String) × Nat :=
  let mime_type := media.mime_type
  let content_type := contentTypeOf mime_type
  if media.size > MAX_FILE_SIZE_BYTES then
    (.error .fileTooLarge, 0)
  else if response.ok = false then
    (.error (.checkFailed response.text), 1)
  else
    match response.body with
    | none => (.error (.checkFailed "malformed response body"), 1)
    | some result =>
      (.ok (result, mediaFeedback content_type result, content_type, mime_type), 1)

/-- The flag loop of `check_content_safety`: scan the configured flag names in
order and report whether any is true in the result. -/
def anyFlagTrue (flagNames : List String) (result : ModerationResult) : Bool :=
  match flagNames with
  | [] => false
  | f :: rest => if result.flags f then true else anyFlagTrue rest result

/-- `check_content_safety`: dispatch to the text or media helper (raising
`ValueError("Must provide text or media")` when neither is given), then apply
the policy's flag loop: return `is_safe = false` on the first configured flag
that is true, `is_safe = true` otherwise, together with the feedback and mime
type. The second component counts HTTP POSTs performed. -/
def check_content_safety (text : Option String) (media : Option MediaFile)
    (response : HttpResponse) : Except ModError (Bool × String × String) × Nat :=
  let call :=
    match text with
    | some t => callTextModeration t response
    | none =>
      match media with
      | some m => callMediaModeration m response
      | none => (.error .mustProvide, 0)
  match call with
  | (.error e, posts) => (.error e, posts)
  | (.ok (result, feedback, content_type, mime_type), posts) =>
    match MODERATION_CONFIG content_type with
    | none => (.error (.keyError content_type), posts)
    | some flagNames =>
      if anyFlagTrue flagNames result then (.ok (false, feedback, mime_type), posts)
      else (.ok (true, feedback, mime_type), posts)

/-- One segment of the downstream prompt: a plain string or a
`BinaryContent(data, media_type)`. -/
inductive PromptPart where
  | text (s : String)
  | binary (data : List Nat) (media_type : String)
deriving DecidableEq

/-- One completed exchange of the conversation history (a request/response
pair of the downstream agent, kept opaque). -/
structure Exchange where
  data : String
deriving DecidableEq

/-- An exception escaping a chat turn: a moderation helper's exception, or a
failure of the downstream agent. -/
inductive TurnError where
  | moderation (e : ModError)
  | agent (e : String)
deriving DecidableEq

/-- The tuple `chat_with_gemini` returns: the reply shown to the user, the
message history handed back to the UI state, and the feedback string. -/
structure TurnResult where
  reply : String
  history : List Exchange
  feedback : String
deriving DecidableEq

/-- The inbound multimodal message: the `"text"` and `"files"` entries of the
Gradio message dict, iterated in that order. An empty text value is falsy and
skipped, as is an empty files list. -/
structure Message where
  text : String
  files : List MediaFile
deriving DecidableEq

/-- The external collaborators of one turn: `responses n` is the remote
moderation response to the n-th HTTP POST of the turn, and `agent` is the
downstream agent, returning a reply and the one new exchange of the run (or a
failure). -/
structure Env where
  responses : Nat → HttpResponse
  agent : List PromptPart → List Exchange → Except String (String × Exchange)

def supportPreamble : String := "This is the next message from the support agent:"

def blockedReply : String := "[Content blocked by moderation]"

/-- The warning-marker feedback prefix, with the exact (mojibake) characters
the source file contains before " Content flagged: ". -/
def contentFlagged (msg : String) : String :=
  "âš ï¸ Content flagged: " ++ msg

/-- Outcome of one phase of the part loop of `chat_with_gemini`: an early
`return` with a blocked reply, an exception propagating, or falling through
with the prompt parts assembled so far and the current `safety_message`. -/
inductive PhaseOut where
  | blocked (feedback : String)
  | failed (e : TurnError)
  | passed (parts : List PromptPart) (safety_message : String)

/-- The `"text"` branch of the loop in `chat_with_gemini`: when the text value
is truthy, gate it; block on an unsafe verdict, otherwise append the text to
the prompt. The counter is the number of HTTP POSTs performed. -/
def textPhase (message : Message) (env : Env) : PhaseOut × Nat :=
  if message.text ≠ "" then
    match check_content_safety (some message.text) none (env.responses 0) with
    | (.error e, posts) => (.failed (.moderation e), posts)
    | (.ok (is_safe, safety_message, _mime), posts) =>
      if is_safe = false then (.blocked (contentFlagged safety_message), posts)
      else (.passed [.text supportPreamble, .text message.text] safety_message, posts)
  else (.passed [.text supportPreamble] "", 0)

/-- The `"files"` branch of the loop in `chat_with_gemini`: gate each file in
order; block on the first unsafe verdict, otherwise append a
`BinaryContent(file_bytes, mime_type)` with the mime type returned by the
check. `n` is the number of HTTP POSTs performed so far. -/
def filesPhase (env : Env) : List MediaFile → Nat → List PromptPart → String →
    PhaseOut × Nat
  | [], n, parts, safety_message => (.passed parts safety_message, n)
  | file :: rest, n, parts, _ =>
    match check_content_safety none (some file) (env.responses n) with
    | (.error e, posts) => (.failed (.moderation e), n + posts)
    | (.ok (is_safe, safety_message, mime_type), posts) =>
      if is_safe = false then (.blocked (contentFlagged safety_message), n + posts)
      else
        filesPhase env rest (n + posts) (parts ++ [.binary file.bytes mime_type])
          safety_message

/-- The downstream agent call of `chat_with_gemini`. Per the pydantic-ai
collaborator contract, `result.all_messages()` is the passed
`message_history` followed by the run's one new exchange. -/
def agentWrap (res : Except String (String × Exchange)) (past_messages : List Exchange)
    (safety_message : String) : Except TurnError TurnResult :=
  match res with
  | .error e => .error (.agent e)
  | .ok (out, exch) => .ok ⟨out, past_messages ++ [exch], safety_message⟩

/-- `ChatSessionWithTracing.chat_with_gemini`: iterate the message's text and
file parts in order through `check_content_safety`, returning the blocked
tuple (reply `[Content blocked by moderation]`, the unchanged `past_messages`,
the flagged feedback) at the first unsafe verdict, and otherwise handing the
assembled prompt to the downstream agent. Returned next to the Python value:
the number of HTTP POSTs the turn performed, and whether the downstream agent
was invoked. -/
def chat_with_gemini (message : Message) (past_messages : List Exchange)
    (env : Env) : Except TurnError TurnResult × Nat × Bool :=
  match textPhase message env with
  | (.failed e, n) => (.error e, n, false)
  | (.blocked fb, n) => (.ok ⟨blockedReply, past_messages, fb⟩, n, false)
  | (.passed parts sm, n) =>
    match filesPhase env message.files n parts sm with
    | (.failed e, n2) => (.error e, n2, false)
    | (.blocked fb, n2) => (.ok ⟨blockedReply, past_messages, fb⟩, n2, false)
    | (.passed parts2 sm2, n2) =>
      (agentWrap (env.agent parts2 past_messages) past_messages sm2, n2, true)

/-- A root trace span, reduced to whether it has been ended. Modelled from the
OpenTelemetry collaborator contract (the spec's observability sink): calling
`end()` on an already-ended span is ignored, not an error. -/
structure Span where
  ended : Bool
deriving DecidableEq

def Span.endSpan (s : Span) : Span :=
  if s.ended then s else { ended := true }

/-- `ChatSessionWithTracing`'s state: a session id and the root conversation
span opened at construction. -/
structure ChatSessionWithTracing where
  session_id : String
  conversation_span : Span
deriving DecidableEq

/-- `end_conversation`: `if self.conversation_span:` is always truthy (the
span is assigned at construction and never cleared), so each call invokes
`span.end()`; it returns "Conversation ended." unconditionally. -/
def end_conversation (s : ChatSessionWithTracing) : ChatSessionWithTracing × String :=
  (⟨s.session_id, s.conversation_span.endSpan⟩, "Conversation ended.")

/-- A message part in presentation order: the text part (when truthy) followed
by the file parts. -/
inductive Part where
  | text (t : String)
  | media (m : MediaFile)
deriving DecidableEq

/-- The ordered part sequence of a message: the truthy text value, then the
files in order. -/
def partsOf (message : Message) : List Part :=
  (if message.text ≠ "" then [Part.text message.text] else [])
    ++ message.files.map Part.media

/-- The moderation check a part undergoes, using the response to the n-th POST
of the turn. -/
def checkOfPart (env : Env) (n : Nat) : Part →
    Except ModError (Bool × String × String) × Nat
  | .text t => check_content_safety (some t) none (env.responses n)
  | .media m => check_content_safety none (some m) (env.responses n)

/-- The verdict of a check when it returned one (`none` when it raised). -/
def checkOutcome (c : Except ModError (Bool × String × String) × Nat) :
    Option Bool :=
  match c.1 with
  | .ok (v, _, _) => some v
  | .error _ => none

/-- The prompt segment a safe part contributes: its text, or a binary segment
tagged with the classified mime type. -/
def partToPrompt : Part → PromptPart
  | .text t => .text t
  | .media m => .binary m.bytes m.mime_type

/-- A placeholder part used as `getD` default in out-of-range positions. -/
def dfltPart : Part := .text ""

/-!
### Characterisation lemmas for one moderation check
-/

theorem check_text_ok (t : String) (result : ModerationResult) (r : HttpResponse)
    (hok : r.ok = true) (hbody : r.body = some result) :
    check_content_safety (some t) none r =
      (.ok (!anyFlagTrue ["is_unfriendly", "is_unprofessional", "contains_pii"] result,
        result.rationale, "text/plain"), 1) := by
  have hcfg : MODERATION_CONFIG "text" =
      some ["is_unfriendly", "is_unprofessional", "contains_pii"] := rfl
  cases haf : anyFlagTrue ["is_unfriendly", "is_unprofessional", "contains_pii"] result <;>
    simp [check_content_safety, callTextModeration, hok, hbody, haf, hcfg]

theorem check_media_ok (m : MediaFile) (result : ModerationResult) (r : HttpResponse)
    (flagNames : List String)
    (hok : r.ok = true) (hbody : r.body = some result)
    (hsize : ¬ m.size > MAX_FILE_SIZE_BYTES)
    (hcfg : MODERATION_CONFIG (contentTypeOf m.mime_type) = some flagNames) :
    check_content_safety none (some m) r =
      (.ok (!anyFlagTrue flagNames result,
        mediaFeedback (contentTypeOf m.mime_type) result, m.mime_type), 1) := by
  cases haf : anyFlagTrue flagNames result <;>
    simp [check_content_safety, callMediaModeration, hok, hbody, hsize, hcfg, haf]

theorem check_text_fail (t : String) (r : HttpResponse)
    (hfail : r.ok = false ∨ r.body = none) :
    ∃ s, check_content_safety (some t) none r = (.error (.checkFailed s), 1) := by
  cases hro : r.ok
  · exact ⟨r.text, by simp [check_content_safety, callTextModeration, hro]⟩
  · rcases hfail with hro' | hb
    · rw [hro] at hro'; cases hro'
    · exact ⟨"malformed response body",
        by simp [check_content_safety, callTextModeration, hro, hb]⟩

theorem check_media_fail (m : MediaFile) (r : HttpResponse)
    (hsize : ¬ m.size > MAX_FILE_SIZE_BYTES)
    (hfail : r.ok = false ∨ r.body = none) :
    ∃ s, check_content_safety none (some m) r = (.error (.checkFailed s), 1) := by
  cases hro : r.ok
  · exact ⟨r.text, by simp [check_content_safety, callMediaModeration, hsize, hro]⟩
  · rcases hfail with hro' | hb
    · rw [hro] at hro'; cases hro'
    · exact ⟨"malformed response body",
        by simp [check_content_safety, callMediaModeration, hsize, hro, hb]⟩

theorem check_oversize (m : MediaFile) (r : HttpResponse)
    (hsize : m.size > MAX_FILE_SIZE_BYTES) :
    check_content_safety none (some m) r = (.error .fileTooLarge, 0) := by
  simp [check_content_safety, callMediaModeration, hsize]

/-- Inversion: when a media check returns a verdict, it performed exactly one
POST and the returned mime type is the classified one. -/
theorem check_media_inv (m : MediaFile) (r : HttpResponse) (v : Bool) (fb mt : String)
    (h : (check_content_safety none (some m) r).1 = .ok (v, fb, mt)) :
    (check_content_safety none (some m) r).2 = 1 ∧ mt = m.mime_type := by
  by_cases hs : m.size > MAX_FILE_SIZE_BYTES
  · rw [check_oversize m r hs] at h; simp at h
  · cases hro : r.ok
    · rcases check_media_fail m r hs (Or.inl hro) with ⟨s, hc⟩
      rw [hc] at h; simp at h
    · cases hb : r.body with
      | none =>
        rcases check_media_fail m r hs (Or.inr hb) with ⟨s, hc⟩
        rw [hc] at h; simp at h
      | some result =>
        cases hcfg : MODERATION_CONFIG (contentTypeOf m.mime_type) with
        | none =>
          simp [check_content_safety, callMediaModeration, hs, hro, hb, hcfg] at h
        | some flagNames =>
          have hc := check_media_ok m result r flagNames hro hb hs hcfg
          rw [hc] at h
          simp at h
          rw [hc]
          exact ⟨rfl, h.2.2.symm⟩

/-- Inversion: when a text check returns a verdict, it performed exactly one
POST and the returned mime type is "text/plain". -/
theorem check_text_inv (t : String) (r : HttpResponse) (v : Bool) (fb mt : String)
    (h : (check_content_safety (some t) none r).1 = .ok (v, fb, mt)) :
    (check_content_safety (some t) none r).2 = 1 ∧ mt = "text/plain" := by
  cases hro : r.ok
  · rcases check_text_fail t r (Or.inl hro) with ⟨s, hc⟩
    rw [hc] at h; simp at h
  · cases hb : r.body with
    | none =>
      rcases check_text_fail t r (Or.inr hb) with ⟨s, hc⟩
      rw [hc] at h; simp at h
    | some result =>
      have hc := check_text_ok t result r hro hb
      rw [hc] at h
      simp at h
      rw [hc]
      exact ⟨rfl, h.2.2.symm⟩

/-- A placeholder media file used as `getD` default in out-of-range
positions. -/
def dfltFile : MediaFile := ⟨"", "", 0, []⟩

theorem checkOutcome_eq_some (c : Except ModError (Bool × String × String) × Nat)
    (v : Bool) (h : checkOutcome c = some v) :
    ∃ fb mt, c.1 = .ok (v, fb, mt) := by
  unfold checkOutcome at h
  cases hc : c.1 with
  | error e => rw [hc] at h; simp at h
  | ok val =>
    obtain ⟨w, fb, mt⟩ := val
    rw [hc] at h
    simp at h
    subst h
    exact ⟨fb, mt, rfl⟩

/-!
### Behaviour of the files loop
-/

/-- When the first `k` file checks are safe and the `(k+1)`-st returns an
unsafe verdict, the files loop blocks with the flagged feedback after exactly
`k + 1` further POSTs. -/
theorem filesPhase_blocked (env : Env) (k : Nat) :
    ∀ (fs : List MediaFile) (n : Nat) (parts : List PromptPart) (sm fb mt : String),
      k < fs.length →
      (∀ j, j < k →
        checkOutcome (check_content_safety none (some (fs.getD j dfltFile))
          (env.responses (n + j))) = some true) →
      (check_content_safety none (some (fs.getD k dfltFile))
          (env.responses (n + k))).1 = .ok (false, fb, mt) →
      filesPhase env fs n parts sm = (.blocked (contentFlagged fb), n + k + 1) := by
  induction k with
  | zero =>
    intro fs n parts sm fb mt hk _ hbad
    match fs, hk with
    | f :: rest, _ =>
      rw [List.getD_cons_zero, Nat.add_zero] at hbad
      obtain ⟨hp, _⟩ := check_media_inv f (env.responses n) false fb mt hbad
      have hpair : check_content_safety none (some f) (env.responses n) =
          (.ok (false, fb, mt), 1) := by rw [← hbad, ← hp]
      simp [filesPhase, hpair]
  | succ k ih =>
    intro fs n parts sm fb mt hk hsafe hbad
    match fs, hk with
    | f :: rest, hk =>
      have h0 := hsafe 0 (Nat.succ_pos k)
      rw [List.getD_cons_zero, Nat.add_zero] at h0
      obtain ⟨fb0, mt0, h1⟩ := checkOutcome_eq_some _ _ h0
      obtain ⟨hp, _⟩ := check_media_inv f (env.responses n) true fb0 mt0 h1
      have hpair : check_content_safety none (some f) (env.responses n) =
          (.ok (true, fb0, mt0), 1) := by rw [← h1, ← hp]
      have hstep : filesPhase env (f :: rest) n parts sm =
          filesPhase env rest (n + 1) (parts ++ [.binary f.bytes mt0]) fb0 := by
        simp [filesPhase, hpair]
      have hsafe' : ∀ j, j < k →
          checkOutcome (check_content_safety none (some (rest.getD j dfltFile))
            (env.responses (n + 1 + j))) = some true := by
        intro j hj
        have := hsafe (j + 1) (Nat.succ_lt_succ hj)
        rw [List.getD_cons_succ] at this
        have harith : n + (j + 1) = n + 1 + j := by omega
        rw [harith] at this
        exact this
      have hbad' : (check_content_safety none (some (rest.getD k dfltFile))
          (env.responses (n + 1 + k))).1 = .ok (false, fb, mt) := by
        rw [List.getD_cons_succ] at hbad
        have harith : n + (k + 1) = n + 1 + k := by omega
        rw [harith] at hbad
        exact hbad
      have hrec := ih rest (n + 1) (parts ++ [.binary f.bytes mt0]) fb0 fb mt
        (Nat.lt_of_succ_lt_succ hk) hsafe' hbad'
      rw [hstep, hrec]
      simp
      omega

/-- When every file check is safe, the files loop appends one binary segment
per file, in order, tagged with each file's classified mime type, and performs
one POST per file. -/
theorem filesPhase_all_safe (env : Env) (fs : List MediaFile) :
    ∀ (n : Nat) (parts : List PromptPart) (sm : String),
      (∀ j, j < fs.length →
        checkOutcome (check_content_safety none (some (fs.getD j dfltFile))
          (env.responses (n + j))) = some true) →
      ∃ sm2, filesPhase env fs n parts sm =
        (.passed (parts ++ fs.map fun f => .binary f.bytes f.mime_type) sm2,
          n + fs.length) := by
  induction fs with
  | nil => intro n parts sm _; exact ⟨sm, by simp [filesPhase]⟩
  | cons f rest ih =>
    intro n parts sm hsafe
    have h0 := hsafe 0 (Nat.succ_pos _)
    rw [List.getD_cons_zero, Nat.add_zero] at h0
    obtain ⟨fb0, mt0, h1⟩ := checkOutcome_eq_some _ _ h0
    obtain ⟨hp, hmt⟩ := check_media_inv f (env.responses n) true fb0 mt0 h1
    have hpair : check_content_safety none (some f) (env.responses n) =
        (.ok (true, fb0, mt0), 1) := by rw [← h1, ← hp]
    have hstep : filesPhase env (f :: rest) n parts sm =
        filesPhase env rest (n + 1) (parts ++ [.binary f.bytes mt0]) fb0 := by
      simp [filesPhase, hpair]
    have hsafe' : ∀ j, j < rest.length →
        checkOutcome (check_content_safety none (some (rest.getD j dfltFile))
          (env.responses (n + 1 + j))) = some true := by
      intro j hj
      have := hsafe (j + 1) (by simpa using Nat.succ_lt_succ hj)
      rw [List.getD_cons_succ] at this
      have harith : n + (j + 1) = n + 1 + j := by omega
      rw [harith] at this
      exact this
    obtain ⟨sm2, hrec⟩ := ih (n + 1) (parts ++ [.binary f.bytes mt0]) fb0 hsafe'
    refine ⟨sm2, ?_⟩
    rw [hstep, hrec, hmt]
    simp [List.append_assoc]
    omega

/-!
### The flag loop is a logical OR
-/

theorem anyFlagTrue_iff (flagNames : List String) (result : ModerationResult) :
    anyFlagTrue flagNames result = true ↔ ∃ f ∈ flagNames, result.flags f = true := by
  induction flagNames with
  | nil => simp [anyFlagTrue]
  | cons f rest ih =>
    by_cases hf : result.flags f <;> simp [anyFlagTrue, hf, ih]

theorem anyFlagTrue_eq_false_iff (flagNames : List String) (result : ModerationResult) :
    anyFlagTrue flagNames result = false ↔ ∀ f ∈ flagNames, result.flags f = false := by
  rw [← Bool.not_eq_true, anyFlagTrue_iff]
  simp

/-- A non-oversize media check performs exactly one POST, whatever the
response. -/
theorem check_media_posts (m : MediaFile) (r : HttpResponse)
    (hsize : ¬ m.size > MAX_FILE_SIZE_BYTES) :
    (check_content_safety none (some m) r).2 = 1 := by
  cases hro : r.ok
  · obtain ⟨s, hc⟩ := check_media_fail m r hsize (Or.inl hro)
    rw [hc]
  · cases hb : r.body with
    | none =>
      obtain ⟨s, hc⟩ := check_media_fail m r hsize (Or.inr hb)
      rw [hc]
    | some result =>
      cases hcfg : MODERATION_CONFIG (contentTypeOf m.mime_type) with
      | none => simp [check_content_safety, callMediaModeration, hsize, hro, hb, hcfg]
      | some flagNames =>
        rw [check_media_ok m result r flagNames hro hb hsize hcfg]

/-!
### Concrete fixtures used by the witness theorems
-/

def cleanResult : ModerationResult := ⟨fun _ => false, "looks fine", none⟩

def piiResult : ModerationResult := ⟨fun f => f == "contains_pii", "found pii", none⟩

def okResp (result : ModerationResult) : HttpResponse := ⟨true, "", some result⟩

def pngFile : MediaFile := ⟨"application/octet-stream", "image/png", 7, [9, 9]⟩

/-!
### Claims
-/

/-- C1: for every configured content type and every `ModerationResult` the
remote check returns, `check_content_safety` returns `is_safe = false` iff at
least one flag named in that content type's `unsafe_flags` set is true in the
result — a logical OR across the flag set — and `is_safe = true` when all the
configured flags are false. Both entry paths (text and media) are covered. -/
theorem C1_unsafe_iff_some_flag (ct : String) (flagNames : List String)
    (hct : MODERATION_CONFIG ct = some flagNames)
    (result : ModerationResult) (response : HttpResponse)
    (hok : response.ok = true) (hbody : response.body = some result)
    (m : MediaFile) (hmime : contentTypeOf m.mime_type = ct)
    (hsize : ¬ m.size > MAX_FILE_SIZE_BYTES) (t : String) :
    ((check_content_safety none (some m) response).1 =
      .ok (!anyFlagTrue flagNames result, mediaFeedback ct result, m.mime_type))
    ∧ (ct = "text" →
      (check_content_safety (some t) none response).1 =
        .ok (!anyFlagTrue flagNames result, result.rationale, "text/plain"))
    ∧ ((!anyFlagTrue flagNames result) = false ↔
      ∃ f ∈ flagNames, result.flags f = true)
    ∧ ((!anyFlagTrue flagNames result) = true ↔
      ∀ f ∈ flagNames, result.flags f = false) := by
  have hcfg : MODERATION_CONFIG (contentTypeOf m.mime_type) = some flagNames := by
    rw [hmime]; exact hct
  refine ⟨?_, ?_, ?_, ?_⟩
  · rw [check_media_ok m result response flagNames hok hbody hsize hcfg, hmime]
  · intro htext
    rw [htext] at hct
    have : flagNames = ["is_unfriendly", "is_unprofessional", "contains_pii"] := by
      have h0 : MODERATION_CONFIG "text" =
          some ["is_unfriendly", "is_unprofessional", "contains_pii"] := rfl
      rw [hct] at h0
      exact Option.some.inj h0
    rw [this, check_text_ok t result response hok hbody]
  · rw [Bool.not_eq_false']
    exact anyFlagTrue_iff flagNames result
  · rw [Bool.not_eq_true']
    exact anyFlagTrue_eq_false_iff flagNames result

theorem C1_unsafe_iff_some_flag_witness :
    (MODERATION_CONFIG "image" =
      some ["contains_pii", "is_disturbing", "is_low_quality"])
    ∧ (okResp piiResult).ok = true
    ∧ (okResp piiResult).body = some piiResult
    ∧ contentTypeOf pngFile.mime_type = "image"
    ∧ ¬ pngFile.size > MAX_FILE_SIZE_BYTES
    ∧ (((check_content_safety none (some pngFile) (okResp piiResult)).1 =
        .ok (!anyFlagTrue ["contains_pii", "is_disturbing", "is_low_quality"] piiResult,
          mediaFeedback "image" piiResult, pngFile.mime_type))
      ∧ ("image" = "text" →
        (check_content_safety (some "hello") none (okResp piiResult)).1 =
          .ok (!anyFlagTrue ["contains_pii", "is_disturbing", "is_low_quality"] piiResult,
            piiResult.rationale, "text/plain"))
      ∧ ((!anyFlagTrue ["contains_pii", "is_disturbing", "is_low_quality"] piiResult)
          = false ↔
        ∃ f ∈ ["contains_pii", "is_disturbing", "is_low_quality"],
          piiResult.flags f = true)
      ∧ ((!anyFlagTrue ["contains_pii", "is_disturbing", "is_low_quality"] piiResult)
          = true ↔
        ∀ f ∈ ["contains_pii", "is_disturbing", "is_low_quality"],
          piiResult.flags f = false)) :=
  ⟨rfl, rfl, rfl, rfl, by decide,
    C1_unsafe_iff_some_flag "image" ["contains_pii", "is_disturbing", "is_low_quality"]
      rfl piiResult (okResp piiResult) rfl rfl pngFile rfl (by decide) "hello"⟩

/-- C3: whenever the remote check fails — a non-success HTTP response or a
malformed response body — the gating operation raises the check-failed error
(`RuntimeError`, the spec's `ModerationCheckFailed`) and never returns any
verdict, in particular never an `is_safe = true` one (fail-closed). -/
theorem C3_fail_closed (text : Option String) (media : Option MediaFile)
    (response : HttpResponse)
    (hsome : text.isSome = true ∨ media.isSome = true)
    (hsize : text = none → ∀ m, media = some m → ¬ m.size > MAX_FILE_SIZE_BYTES)
    (hfail : response.ok = false ∨ response.body = none) :
    (∃ s, (check_content_safety text media response).1 = .error (.checkFailed s))
    ∧ ∀ v, (check_content_safety text media response).1 ≠ .ok v := by
  have hmain : ∃ s, (check_content_safety text media response).1 =
      .error (.checkFailed s) := by
    rcases text with _ | t
    · rcases media with _ | m
      · simp at hsome
      · obtain ⟨s, hc⟩ := check_media_fail m response (hsize rfl m rfl) hfail
        exact ⟨s, by rw [hc]⟩
    · obtain ⟨s, hc⟩ := check_text_fail t response hfail
      have hm : check_content_safety (some t) media response =
          check_content_safety (some t) none response := rfl
      exact ⟨s, by rw [hm, hc]⟩
  refine ⟨hmain, ?_⟩
  intro v hv
  obtain ⟨s, hs⟩ := hmain
  rw [hs] at hv
  simp at hv

theorem C3_fail_closed_witness :
    ((some "hello" : Option String).isSome = true
      ∨ (none : Option MediaFile).isSome = true)
    ∧ ((some "hello" : Option String) = none →
        ∀ m, (none : Option MediaFile) = some m → ¬ m.size > MAX_FILE_SIZE_BYTES)
    ∧ ((⟨false, "boom", none⟩ : HttpResponse).ok = false
      ∨ (⟨false, "boom", none⟩ : HttpResponse).body = none)
    ∧ ((∃ s, (check_content_safety (some "hello") none ⟨false, "boom", none⟩).1 =
        .error (.checkFailed s))
      ∧ ∀ v, (check_content_safety (some "hello") none ⟨false, "boom", none⟩).1 ≠
        .ok v) :=
  ⟨Or.inl rfl, by simp, Or.inl rfl,
    C3_fail_closed (some "hello") none ⟨false, "boom", none⟩ (Or.inl rfl) (by simp)
      (Or.inl rfl)⟩

/-- C8: for an audio part whose result carries a transcription, the feedback
is the transcription line followed by the rationale; with no transcription, or
for a non-audio part, the feedback is exactly the rationale. -/
theorem C8_transcription_feedback (m : MediaFile) (result : ModerationResult)
    (response : HttpResponse) (hok : response.ok = true)
    (hbody : response.body = some result)
    (hsize : ¬ m.size > MAX_FILE_SIZE_BYTES)
    (flagNames : List String)
    (hcfg : MODERATION_CONFIG (contentTypeOf m.mime_type) = some flagNames) :
    (∀ tr, contentTypeOf m.mime_type = "audio" → result.transcription = some tr →
      ∃ v, (check_content_safety none (some m) response).1 =
        .ok (v, "Transcription: \"" ++ tr ++ "\"\n\n" ++ result.rationale,
          m.mime_type))
    ∧ (contentTypeOf m.mime_type = "audio" → result.transcription = none →
      ∃ v, (check_content_safety none (some m) response).1 =
        .ok (v, result.rationale, m.mime_type))
    ∧ (contentTypeOf m.mime_type ≠ "audio" →
      ∃ v, (check_content_safety none (some m) response).1 =
        .ok (v, result.rationale, m.mime_type)) := by
  have hc := check_media_ok m result response flagNames hok hbody hsize hcfg
  refine ⟨?_, ?_, ?_⟩
  · intro tr haudio htr
    refine ⟨!anyFlagTrue flagNames result, ?_⟩
    rw [hc]
    simp [mediaFeedback, haudio, htr]
  · intro haudio htr
    refine ⟨!anyFlagTrue flagNames result, ?_⟩
    rw [hc]
    simp [mediaFeedback, haudio, htr]
  · intro haudio
    refine ⟨!anyFlagTrue flagNames result, ?_⟩
    rw [hc]
    simp [mediaFeedback, haudio]

theorem C8_transcription_feedback_witness :
    (⟨true, "", some ⟨fun _ => false, "sounds fine", some "test"⟩⟩
        : HttpResponse).ok = true
    ∧ (⟨true, "", some ⟨fun _ => false, "sounds fine", some "test"⟩⟩
        : HttpResponse).body = some ⟨fun _ => false, "sounds fine", some "test"⟩
    ∧ ¬ (⟨"x", "audio/wav", 3, [1]⟩ : MediaFile).size > MAX_FILE_SIZE_BYTES
    ∧ MODERATION_CONFIG
        (contentTypeOf (⟨"x", "audio/wav", 3, [1]⟩ : MediaFile).mime_type) =
      some ["is_unfriendly", "is_unprofessional", "contains_pii"]
    ∧ ((∀ tr,
        contentTypeOf (⟨"x", "audio/wav", 3, [1]⟩ : MediaFile).mime_type = "audio" →
        (⟨fun _ => false, "sounds fine", some "test"⟩ : ModerationResult).transcription
          = some tr →
        ∃ v, (check_content_safety none (some ⟨"x", "audio/wav", 3, [1]⟩)
            ⟨true, "", some ⟨fun _ => false, "sounds fine", some "test"⟩⟩).1 =
          .ok (v, "Transcription: \"" ++ tr ++ "\"\n\n" ++
            (⟨fun _ => false, "sounds fine", some "test"⟩
              : ModerationResult).rationale,
            (⟨"x", "audio/wav", 3, [1]⟩ : MediaFile).mime_type))
      ∧ (contentTypeOf (⟨"x", "audio/wav", 3, [1]⟩ : MediaFile).mime_type = "audio" →
        (⟨fun _ => false, "sounds fine", some "test"⟩
          : ModerationResult).transcription = none →
        ∃ v, (check_content_safety none (some ⟨"x", "audio/wav", 3, [1]⟩)
            ⟨true, "", some ⟨fun _ => false, "sounds fine", some "test"⟩⟩).1 =
          .ok (v, (⟨fun _ => false, "sounds fine", some "test"⟩
            : ModerationResult).rationale,
            (⟨"x", "audio/wav", 3, [1]⟩ : MediaFile).mime_type))
      ∧ (contentTypeOf (⟨"x", "audio/wav", 3, [1]⟩ : MediaFile).mime_type ≠ "audio" →
        ∃ v, (check_content_safety none (some ⟨"x", "audio/wav", 3, [1]⟩)
            ⟨true, "", some ⟨fun _ => false, "sounds fine", some "test"⟩⟩).1 =
          .ok (v, (⟨fun _ => false, "sounds fine", some "test"⟩
            : ModerationResult).rationale,
            (⟨"x", "audio/wav", 3, [1]⟩ : MediaFile).mime_type))) :=
  ⟨rfl, rfl, by decide, rfl,
    C8_transcription_feedback ⟨"x", "audio/wav", 3, [1]⟩
      ⟨fun _ => false, "sounds fine", some "test"⟩
      ⟨true, "", some ⟨fun _ => false, "sounds fine", some "test"⟩⟩
      rfl rfl (by decide) ["is_unfriendly", "is_unprofessional", "contains_pii"] rfl⟩

/-- C9: `end_conversation` closes the root span exactly once: the first call
on an open session ends the span, and a repeated call leaves the session state
unchanged and returns normally (a no-op, not an error) — the span's `end()` is
idempotent per the OpenTelemetry collaborator contract. -/
theorem C9_end_conversation_idempotent (s : ChatSessionWithTracing)
    (hopen : s.conversation_span.ended = false) :
    (end_conversation s).1.conversation_span.ended = true
    ∧ end_conversation (end_conversation s).1 =
        ((end_conversation s).1, "Conversation ended.") := by
  constructor
  · simp [end_conversation, Span.endSpan, hopen]
  · simp [end_conversation, Span.endSpan, hopen]

theorem C9_end_conversation_idempotent_witness :
    (⟨"session-1", ⟨false⟩⟩ : ChatSessionWithTracing).conversation_span.ended = false
    ∧ ((end_conversation ⟨"session-1", ⟨false⟩⟩).1.conversation_span.ended = true
      ∧ end_conversation (end_conversation ⟨"session-1", ⟨false⟩⟩).1 =
          ((end_conversation ⟨"session-1", ⟨false⟩⟩).1, "Conversation ended.")) :=
  ⟨rfl, C9_end_conversation_idempotent ⟨"session-1", ⟨false⟩⟩ rfl⟩

/-- C10: the size comparison is strict (`file_size > MAX_FILE_SIZE_BYTES`):
a media file of exactly `MAX_FILE_SIZE_BYTES = 5 * 1024 * 1024` bytes passes
the size check and the remote check is invoked (one POST is performed), while
a strictly larger file is rejected before any POST. -/
theorem C10_size_threshold_strict (m : MediaFile) (response : HttpResponse) :
    MAX_FILE_SIZE_BYTES = 5 * 1024 * 1024
    ∧ (m.size = MAX_FILE_SIZE_BYTES →
      (check_content_safety none (some m) response).2 = 1)
    ∧ (m.size > MAX_FILE_SIZE_BYTES →
      check_content_safety none (some m) response = (.error .fileTooLarge, 0)) := by
  refine ⟨rfl, ?_, ?_⟩
  · intro hEq
    exact check_media_posts m response (by omega)
  · intro hGt
    exact check_oversize m response hGt

theorem C10_size_threshold_strict_witness :
    (⟨"v", "video/mp4", MAX_FILE_SIZE_BYTES, []⟩ : MediaFile).size =
      MAX_FILE_SIZE_BYTES
    ∧ (check_content_safety none (some ⟨"v", "video/mp4", MAX_FILE_SIZE_BYTES, []⟩)
        (okResp cleanResult)).2 = 1
    ∧ (⟨"v", "video/mp4", MAX_FILE_SIZE_BYTES + 1, []⟩ : MediaFile).size >
      MAX_FILE_SIZE_BYTES
    ∧ check_content_safety none
        (some ⟨"v", "video/mp4", MAX_FILE_SIZE_BYTES + 1, []⟩) (okResp cleanResult) =
      (.error .fileTooLarge, 0) :=
  ⟨rfl,
    (C10_size_threshold_strict ⟨"v", "video/mp4", MAX_FILE_SIZE_BYTES, []⟩
      (okResp cleanResult)).2.1 rfl,
    Nat.lt_succ_self MAX_FILE_SIZE_BYTES,
    (C10_size_threshold_strict ⟨"v", "video/mp4", MAX_FILE_SIZE_BYTES + 1, []⟩
      (okResp cleanResult)).2.2 (Nat.lt_succ_self MAX_FILE_SIZE_BYTES)⟩


/-!
### The text phase and part-sequence helpers
-/

theorem textPhase_empty (message : Message) (env : Env) (ht : message.text = "") :
    textPhase message env = (.passed [.text supportPreamble] "", 0) := by
  simp [textPhase, ht]

theorem textPhase_safe (message : Message) (env : Env) (ht : message.text ≠ "")
    (fb mt : String)
    (h : (check_content_safety (some message.text) none (env.responses 0)).1 =
      .ok (true, fb, mt)) :
    textPhase message env =
      (.passed [.text supportPreamble, .text message.text] fb, 1) := by
  obtain ⟨hp, _⟩ := check_text_inv message.text (env.responses 0) true fb mt h
  have hpair : check_content_safety (some message.text) none (env.responses 0) =
      (.ok (true, fb, mt), 1) := by rw [← h, ← hp]
  simp [textPhase, ht, hpair]

theorem textPhase_flagged (message : Message) (env : Env) (ht : message.text ≠ "")
    (fb mt : String)
    (h : (check_content_safety (some message.text) none (env.responses 0)).1 =
      .ok (false, fb, mt)) :
    textPhase message env = (.blocked (contentFlagged fb), 1) := by
  obtain ⟨hp, _⟩ := check_text_inv message.text (env.responses 0) false fb mt h
  have hpair : check_content_safety (some message.text) none (env.responses 0) =
      (.ok (false, fb, mt), 1) := by rw [← h, ← hp]
  simp [textPhase, ht, hpair]

theorem getD_map_media (files : List MediaFile) (j : Nat) (hj : j < files.length) :
    (files.map Part.media).getD j dfltPart = Part.media (files.getD j dfltFile) := by
  rw [List.getD_eq_getElem?_getD, List.getD_eq_getElem?_getD,
    List.getElem?_map, List.getElem?_eq_getElem hj]
  simp

/-- C2: when part i (1-indexed) of a turn's ordered part sequence is the first
part with an unsafe verdict and every earlier part is safe, exactly i remote
checks are performed, no later part is checked, the downstream agent is never
invoked, and the turn returns the blocked reply with the past history
unchanged and the unsafe part's feedback prefixed by the warning marker. -/
theorem C2_short_circuit (message : Message) (past_messages : List Exchange)
    (env : Env) (i : Nat) (fb mt : String)
    (hi1 : 1 ≤ i) (hi2 : i ≤ (partsOf message).length)
    (hsafe : ∀ j, j + 1 < i →
      checkOutcome (checkOfPart env j ((partsOf message).getD j dfltPart)) = some true)
    (hbad : (checkOfPart env (i - 1) ((partsOf message).getD (i - 1) dfltPart)).1 =
      .ok (false, fb, mt)) :
    chat_with_gemini message past_messages env =
      (.ok ⟨blockedReply, past_messages, contentFlagged fb⟩, i, false) := by
  by_cases ht : message.text = ""
  · have hparts : partsOf message = message.files.map Part.media := by
      simp [partsOf, ht]
    have hlen : (partsOf message).length = message.files.length := by
      rw [hparts]; simp
    have hk : i - 1 < message.files.length := by omega
    have hsafe' : ∀ j, j < i - 1 →
        checkOutcome (check_content_safety none (some (message.files.getD j dfltFile))
          (env.responses (0 + j))) = some true := by
      intro j hj
      have hjlen : j < message.files.length := by omega
      have hs := hsafe j (by omega)
      rw [hparts, getD_map_media _ _ hjlen] at hs
      simpa [checkOfPart] using hs
    have hbad' : (check_content_safety none
        (some (message.files.getD (i - 1) dfltFile))
        (env.responses (0 + (i - 1)))).1 = .ok (false, fb, mt) := by
      have hu := hbad
      rw [hparts, getD_map_media _ _ hk] at hu
      simpa [checkOfPart] using hu
    have hfp := filesPhase_blocked env (i - 1) message.files 0
      [.text supportPreamble] "" fb mt hk hsafe' hbad'
    have hidx : 0 + (i - 1) + 1 = i := by omega
    rw [hidx] at hfp
    simp [chat_with_gemini, textPhase_empty message env ht, hfp]
  · have hparts : partsOf message =
        Part.text message.text :: message.files.map Part.media := by
      simp [partsOf, ht]
    have hlen : (partsOf message).length = message.files.length + 1 := by
      rw [hparts]; simp
    by_cases hone : i = 1
    · subst hone
      have h0 := hbad
      rw [hparts] at h0
      rw [show (1 : Nat) - 1 = 0 from rfl, List.getD_cons_zero] at h0
      have h0' : (check_content_safety (some message.text) none
          (env.responses 0)).1 = .ok (false, fb, mt) := by
        simpa [checkOfPart] using h0
      have htp := textPhase_flagged message env ht fb mt h0'
      simp [chat_with_gemini, htp]
    · have hge : 2 ≤ i := by omega
      have h0 := hsafe 0 (by omega)
      rw [hparts, List.getD_cons_zero] at h0
      obtain ⟨fb0, mt0, h1⟩ :=
        checkOutcome_eq_some _ _ (by simpa [checkOfPart] using h0)
      have htp := textPhase_safe message env ht fb0 mt0 h1
      have hk : i - 2 < message.files.length := by omega
      have hsafe' : ∀ j, j < i - 2 →
          checkOutcome (check_content_safety none
            (some (message.files.getD j dfltFile))
            (env.responses (1 + j))) = some true := by
        intro j hj
        have hjlen : j < message.files.length := by omega
        have hs := hsafe (j + 1) (by omega)
        rw [hparts, List.getD_cons_succ, getD_map_media _ _ hjlen] at hs
        have harith : 1 + j = j + 1 := by omega
        rw [harith]
        simpa [checkOfPart] using hs
      have hbad' : (check_content_safety none
          (some (message.files.getD (i - 2) dfltFile))
          (env.responses (1 + (i - 2)))).1 = .ok (false, fb, mt) := by
        have hidx : i - 1 = (i - 2) + 1 := by omega
        have hu := hbad
        rw [hidx, hparts, List.getD_cons_succ, getD_map_media _ _ hk] at hu
        have harith : 1 + (i - 2) = (i - 2) + 1 := by omega
        rw [harith]
        simpa [checkOfPart] using hu
      have hfp := filesPhase_blocked env (i - 2) message.files 1
        [.text supportPreamble, .text message.text] fb0 fb mt hk hsafe' hbad'
      have hidx : 1 + (i - 2) + 1 = i := by omega
      rw [hidx] at hfp
      simp [chat_with_gemini, htp, hfp]

theorem C2_short_circuit_witness :
    (1 ≤ 2 ∧ 2 ≤ (partsOf ⟨"hello", [pngFile]⟩).length)
    ∧ chat_with_gemini ⟨"hello", [pngFile]⟩ []
        ⟨fun n => if n == 0 then okResp cleanResult else okResp piiResult,
          fun _ _ => .error "agent is never reached"⟩ =
      (.ok ⟨blockedReply, [], contentFlagged "found pii"⟩, 2, false) :=
  ⟨⟨by omega, by decide⟩,
    C2_short_circuit ⟨"hello", [pngFile]⟩ []
      ⟨fun n => if n == 0 then okResp cleanResult else okResp piiResult,
        fun _ _ => .error "agent is never reached"⟩
      2 "found pii" "image/png" (by omega) (by decide)
      (by
        intro j hj
        have hj0 : j = 0 := by omega
        subst hj0
        rfl)
      rfl⟩

/-- C4: on a turn whose gate passes and whose downstream agent call succeeds,
the returned history is exactly the prior history plus one new exchange; on a
blocked turn (agent never invoked) the returned history is exactly the prior
history, with no partial append. -/
theorem C4_history_invariant (message : Message) (past_messages : List Exchange)
    (env : Env) (r : TurnResult) (n : Nat) (b : Bool)
    (h : chat_with_gemini message past_messages env = (.ok r, n, b)) :
    (b = true → ∃ e, r.history = past_messages ++ [e])
    ∧ (b = false → r.history = past_messages) := by
  unfold chat_with_gemini at h
  split at h
  · simp at h
  · simp at h
    obtain ⟨h1, _, h3⟩ := h
    constructor
    · intro hb; simp [h3] at hb
    · intro _; rw [← h1]
  · rename_i parts sm nn heq
    split at h
    · simp at h
    · simp at h
      obtain ⟨h1, _, h3⟩ := h
      constructor
      · intro hb; simp [h3] at hb
      · intro _; rw [← h1]
    · rename_i parts2 sm2 n2 heq2
      unfold agentWrap at h
      split at h
      · simp at h
      · rename_i out exch heq3
        simp at h
        obtain ⟨h1, _, h3⟩ := h
        constructor
        · intro _; exact ⟨exch, by rw [← h1]⟩
        · intro hb; simp [h3] at hb

theorem C4_history_invariant_witness :
    chat_with_gemini ⟨"hello", []⟩ [⟨"old"⟩]
        ⟨fun _ => okResp cleanResult, fun _ _ => .ok ("agent reply", ⟨"new"⟩)⟩ =
      (.ok ⟨"agent reply", [⟨"old"⟩, ⟨"new"⟩], "looks fine"⟩, 1, true)
    ∧ ((true = true →
        ∃ e, ([⟨"old"⟩, ⟨"new"⟩] : List Exchange) = [⟨"old"⟩] ++ [e])
      ∧ (true = false → ([⟨"old"⟩, ⟨"new"⟩] : List Exchange) = [⟨"old"⟩])) :=
  ⟨rfl,
    C4_history_invariant ⟨"hello", []⟩ [⟨"old"⟩]
      ⟨fun _ => okResp cleanResult, fun _ _ => .ok ("agent reply", ⟨"new"⟩)⟩
      ⟨"agent reply", [⟨"old"⟩, ⟨"new"⟩], "looks fine"⟩ 1 true rfl⟩

/-- C5 counterexample: a media part one byte over the limit makes the turn
raise the `File too large` error — an exception escaping `chat_with_gemini`,
with zero remote checks — instead of returning a blocked `TurnResult` with a
size-specific feedback message as the claim states. -/
theorem C5_counterexample :
    chat_with_gemini
        ⟨"", [⟨"video/mp4", "video/mp4", MAX_FILE_SIZE_BYTES + 1, []⟩]⟩ []
        ⟨fun _ => okResp cleanResult, fun _ _ => .error "agent is never reached"⟩ =
      (.error (.moderation .fileTooLarge), 0, false) := rfl

/-- C5 (amended): a media part whose size exceeds `MAX_FILE_SIZE_BYTES` makes
the gate raise `ValueError("File too large")` before any remote check (zero
POSTs), and the turn propagates that error — the downstream agent is not
invoked — rather than returning a blocked response. -/
theorem C5_oversize_raises (f : MediaFile) (hf : f.size > MAX_FILE_SIZE_BYTES)
    (response : HttpResponse) (past_messages : List Exchange) (env : Env) :
    check_content_safety none (some f) response = (.error .fileTooLarge, 0)
    ∧ chat_with_gemini ⟨"", [f]⟩ past_messages env =
      (.error (.moderation .fileTooLarge), 0, false) := by
  refine ⟨check_oversize f response hf, ?_⟩
  have h := check_oversize f (env.responses 0) hf
  simp [chat_with_gemini, textPhase, filesPhase, h]

theorem C5_oversize_raises_witness :
    (⟨"video/mp4", "video/mp4", MAX_FILE_SIZE_BYTES + 1, []⟩ : MediaFile).size >
      MAX_FILE_SIZE_BYTES
    ∧ (check_content_safety none
        (some ⟨"video/mp4", "video/mp4", MAX_FILE_SIZE_BYTES + 1, []⟩)
        (okResp cleanResult) = (.error .fileTooLarge, 0)
      ∧ chat_with_gemini
          ⟨"", [⟨"video/mp4", "video/mp4", MAX_FILE_SIZE_BYTES + 1, []⟩]⟩ [⟨"old"⟩]
          ⟨fun _ => okResp cleanResult, fun _ _ => .error "agent is never reached"⟩ =
        (.error (.moderation .fileTooLarge), 0, false)) :=
  ⟨Nat.lt_succ_self MAX_FILE_SIZE_BYTES,
    C5_oversize_raises ⟨"video/mp4", "video/mp4", MAX_FILE_SIZE_BYTES + 1, []⟩
      (Nat.lt_succ_self MAX_FILE_SIZE_BYTES) (okResp cleanResult) [⟨"old"⟩]
      ⟨fun _ => okResp cleanResult, fun _ _ => .error "agent is never reached"⟩⟩

/-- C6 counterexample: a message with empty text and no files does not fail
and the downstream agent IS invoked (with only the preamble prompt): the turn
completes with the agent's reply. This refutes the claim that such a turn
fails with `EmptyMessage` without invoking the agent. -/
theorem C6_counterexample :
    chat_with_gemini ⟨"", []⟩ []
        ⟨fun _ => okResp cleanResult, fun _ _ => .ok ("agent reply", ⟨"new"⟩)⟩ =
      (.ok ⟨"agent reply", [⟨"new"⟩], ""⟩, 0, true) := rfl

/-- C6 (amended): for a message with neither a non-empty text value nor any
media part, the turn performs zero remote checks and invokes the downstream
agent (with only the preamble prompt); it does not fail. The
`ValueError("Must provide text or media")` guard exists only inside
`check_content_safety`, which the turn never calls with both arguments
absent. -/
theorem C6_empty_message_forwarded (past_messages : List Exchange) (env : Env)
    (response : HttpResponse) :
    (chat_with_gemini ⟨"", []⟩ past_messages env).2.1 = 0
    ∧ (chat_with_gemini ⟨"", []⟩ past_messages env).2.2 = true
    ∧ check_content_safety none none response = (.error .mustProvide, 0) := by
  refine ⟨?_, ?_, by simp [check_content_safety]⟩ <;>
    simp [chat_with_gemini, textPhase, filesPhase]

/-- C7: for an all-safe part sequence the prompt handed to the downstream
agent is the preamble followed by the message's parts in their original order,
text parts as text segments and media parts as binary segments tagged with the
classified mime type (the `detect_file_type` result carried by the verdict,
not the caller-declared type), and one remote check ran per part. -/
theorem C7_order_preserving (message : Message) (past_messages : List Exchange)
    (env : Env)
    (hsafe : ∀ j, j < (partsOf message).length →
      checkOutcome (checkOfPart env j ((partsOf message).getD j dfltPart)) =
        some true) :
    ∃ sm, chat_with_gemini message past_messages env =
      (agentWrap
        (env.agent (.text supportPreamble :: (partsOf message).map partToPrompt)
          past_messages)
        past_messages sm,
       (partsOf message).length, true) := by
  by_cases ht : message.text = ""
  · have hparts : partsOf message = message.files.map Part.media := by
      simp [partsOf, ht]
    have hlen : (partsOf message).length = message.files.length := by
      rw [hparts]; simp
    have hsafe' : ∀ j, j < message.files.length →
        checkOutcome (check_content_safety none (some (message.files.getD j dfltFile))
          (env.responses (0 + j))) = some true := by
      intro j hj
      have hs := hsafe j (by omega)
      rw [hparts, getD_map_media _ _ hj] at hs
      simpa [checkOfPart] using hs
    obtain ⟨sm2, hfp⟩ :=
      filesPhase_all_safe env message.files 0 [.text supportPreamble] "" hsafe'
    have hmap : (partsOf message).map partToPrompt =
        message.files.map (fun f => PromptPart.binary f.bytes f.mime_type) := by
      rw [hparts]
      simp [List.map_map, Function.comp, partToPrompt]
    refine ⟨sm2, ?_⟩
    rw [hmap, hlen]
    simp [chat_with_gemini, textPhase_empty message env ht, hfp]
  · have hparts : partsOf message =
        Part.text message.text :: message.files.map Part.media := by
      simp [partsOf, ht]
    have hlen : (partsOf message).length = message.files.length + 1 := by
      rw [hparts]; simp
    have h0 := hsafe 0 (by omega)
    rw [hparts, List.getD_cons_zero] at h0
    obtain ⟨fb0, mt0, h1⟩ :=
      checkOutcome_eq_some _ _ (by simpa [checkOfPart] using h0)
    have htp := textPhase_safe message env ht fb0 mt0 h1
    have hsafe' : ∀ j, j < message.files.length →
        checkOutcome (check_content_safety none (some (message.files.getD j dfltFile))
          (env.responses (1 + j))) = some true := by
      intro j hj
      have hs := hsafe (j + 1) (by omega)
      rw [hparts, List.getD_cons_succ, getD_map_media _ _ hj] at hs
      have harith : 1 + j = j + 1 := by omega
      rw [harith]
      simpa [checkOfPart] using hs
    obtain ⟨sm2, hfp⟩ := filesPhase_all_safe env message.files 1
      [.text supportPreamble, .text message.text] fb0 hsafe'
    have hmap : (partsOf message).map partToPrompt =
        PromptPart.text message.text ::
          message.files.map (fun f => PromptPart.binary f.bytes f.mime_type) := by
      rw [hparts]
      simp [List.map_map, Function.comp, partToPrompt]
    refine ⟨sm2, ?_⟩
    rw [hmap, hlen]
    have harith : 1 + message.files.length = message.files.length + 1 := by omega
    rw [harith] at hfp
    simp [chat_with_gemini, htp, hfp]

theorem C7_order_preserving_witness :
    (∀ j, j < (partsOf ⟨"hello", [pngFile]⟩).length →
      checkOutcome (checkOfPart
          ⟨fun _ => okResp cleanResult, fun _ _ => .ok ("agent reply", ⟨"new"⟩)⟩ j
        ((partsOf ⟨"hello", [pngFile]⟩).getD j dfltPart)) = some true)
    ∧ ∃ sm, chat_with_gemini ⟨"hello", [pngFile]⟩ [⟨"old"⟩]
        ⟨fun _ => okResp cleanResult, fun _ _ => .ok ("agent reply", ⟨"new"⟩)⟩ =
      (agentWrap
        ((fun (_ : List PromptPart) (_ : List Exchange) =>
            (.ok ("agent reply", ⟨"new"⟩) : Except String (String × Exchange)))
          (.text supportPreamble ::
            (partsOf ⟨"hello", [pngFile]⟩).map partToPrompt) [⟨"old"⟩])
        [⟨"old"⟩] sm,
       (partsOf ⟨"hello", [pngFile]⟩).length, true) :=
  ⟨by
      intro j hj
      have hj2 : j < 2 := by simpa [partsOf, pngFile] using hj
      interval_cases j <;> rfl,
    C7_order_preserving ⟨"hello", [pngFile]⟩ [⟨"old"⟩]
      ⟨fun _ => okResp cleanResult, fun _ _ => .ok ("agent reply", ⟨"new"⟩)⟩
      (by
        intro j hj
        have hj2 : j < 2 := by simpa [partsOf, pngFile] using hj
        interval_cases j <;> rfl)⟩


end MultimodalModeration
